import Mathlib

/-!
Verification development for the r6 design-space-exploration tools:
a shallow embedding of the cost estimator (`costestimate.cpp`), the
reference constant-materialization utility (`constmat.cpp`) and the
opcode-encoding solver (`encode.cpp`), sharing the width-budget table
from `immbits.hpp`, together with proofs about that embedding.
-/

set_option maxHeartbeats 2000000

namespace R6

/-! ### Width budgets (`immbits.hpp`) -/

def ShAmtBits : Nat := 6
def AddSubImmBits : Nat := 16
def BitImmBits : Nat := 15
def SelectImmBits : Nat := 16
def SmallSelectImmBits : Nat := 10
def LargeImmBits : Nat := 20
def ShiftImmBits : Nat := 14
def MinMaxImmBits : Nat := 16
def MulDivBits : Nat := 14
def SmallMulBits : Nat := 7
def FPImmBits : Nat := 16
def FPSmallImmBits : Nat := 8
def NotBit : Nat := 1
def NegBit : Nat := 1
def LinkBit : Nat := 1
def CmpImmBits : Nat := 12
def JumpOffsetImmBits : Nat := 18
def BranchOffsetImmBits : Nat := 12
def BranchCmpImmBits : Nat := 5

/-! ### LLVM `MathExtras` helpers used by the sources -/

/-- `llvm::isInt<N>(x)`: `x` fits in an `N`-bit signed integer
(`N ≥ 64` always holds for an `int64_t` argument). -/
def isIntB (N : Nat) (x : Int) : Bool :=
  decide (64 ≤ N) || (decide (-(2 ^ (N - 1) : Int) ≤ x) && decide (x < (2 ^ (N - 1) : Int)))

/-- `llvm::isUInt<N>(x)`: `x` fits in an `N`-bit unsigned integer. -/
def isUIntB (N : Nat) (x : Nat) : Bool :=
  decide (64 ≤ N) || decide (x < 2 ^ N)

/-- `llvm::isMask_64`: the value is nonzero and of the form `2^k - 1`. -/
def isMask64 (x : Nat) : Bool :=
  x != 0 && Nat.land (x + 1) x == 0

/-- `llvm::isShiftedMask_64`: nonzero and a contiguous run of one bits. -/
def isShiftedMask64 (x : Nat) : Bool :=
  x != 0 && isMask64 (Nat.lor (x - 1) x)

/-- Population count of the low `fuel` bits. -/
def popcountFuel : Nat → Nat → Nat
  | 0, _ => 0
  | f + 1, x => x % 2 + popcountFuel f (x / 2)

/-- Trailing zero count of a `fuel`-bit value, `fuel` for the zero value
(the `APInt::countr_zero` convention). -/
def ctzFuel : Nat → Nat → Nat
  | 0, _ => 0
  | f + 1, x => if x % 2 == 1 then 0 else 1 + ctzFuel f (x / 2)

/-- Trailing one count (`APInt::countr_one`). -/
def ctoFuel : Nat → Nat → Nat
  | 0, _ => 0
  | f + 1, x => if x % 2 == 1 then 1 + ctoFuel f (x / 2) else 0

/-- Leading one count of a `w`-bit value `z < 2^w` (`APInt::countl_one`). -/
def countlOneAux : Nat → Nat → Nat
  | 0, _ => 0
  | w + 1, z => if z / 2 ^ w == 1 then 1 + countlOneAux w (z % 2 ^ w) else 0

/-- Leading zero count of a `w`-bit value `z < 2^w` (`APInt::countl_zero`). -/
def countlZeroAux : Nat → Nat → Nat
  | 0, _ => 0
  | w + 1, z => if z / 2 ^ w == 0 then 1 + countlZeroAux w (z % 2 ^ w) else 0

/-- The `w/8`-fold repetition of the byte `b` (for `APInt::isSplat(8)`). -/
def splatRep (b : Nat) : Nat → Nat
  | 0 => 0
  | k + 1 => b + 256 * splatRep b k

/-! ### Constants and values of the estimated IR -/

/-- An arbitrary-precision integer constant (`llvm::APInt`):
a bit width and a value interpreted modulo `2 ^ width`. -/
structure IntConst where
  width : Nat
  val : Nat
deriving DecidableEq

/-- `APInt::getZExtValue`. -/
def IntConst.uval (c : IntConst) : Nat := c.val % 2 ^ c.width

/-- `APInt::getSExtValue`. -/
def IntConst.sval (c : IntConst) : Int :=
  if c.uval < 2 ^ (c.width - 1) then (c.uval : Int) else (c.uval : Int) - 2 ^ c.width

/-- `APInt::isSplat(8)`: every byte of the value is equal
(only called when `8 ∣ width`). -/
def IntConst.isSplat8 (c : IntConst) : Bool :=
  c.uval == splatRep (c.uval % 256) (c.width / 8)

/-- A floating-point constant. The estimator consults `APFloat` (an LLVM
library type external to this repository) only through two lossless
round-trip conversions, so the constant is modelled by its bit identity
together with those two oracle bits: whether `APFloat::convert` to
`Float8E4M3FN` (resp. `IEEEhalf`) under round-nearest-ties-to-even
returns `opOK` without losing information. -/
structure FPConst where
  bits : Nat
  fitsFloat8E4M3FN : Bool
  fitsIEEEHalf : Bool
deriving DecidableEq

/-- An SSA value: a function parameter, an integer or floating constant,
or the result of the instruction with the given id. -/
inductive Value where
  | param (idx : Nat)
  | intConst (c : IntConst)
  | fpConst (f : FPConst)
  | instr (id : Nat)
deriving DecidableEq

/-! ### Pattern matchers (`costestimate.cpp`, `m_Int` / `m_UInt` /
`m_ShAmt` / `m_BitImm` / `m_FPImm` and `PatternMatch::m_Zero`,
`m_Power2`) -/

/-- `PatternMatch::m_Zero`: an integer constant equal to zero, of any width. -/
def m_Zero : Value → Bool
  | .intConst c => c.uval == 0
  | _ => false

/-- `m_Int<K>`: zero, or an integer constant of width `< 64` whose
sign-extended value fits `K` signed bits. -/
def m_Int (K : Nat) (v : Value) : Bool :=
  m_Zero v ||
    (match v with
     | .intConst c => decide (c.width < 64) && isIntB K c.sval
     | _ => false)

/-- `m_UInt<K>`: zero, or an integer constant of width `< 64` whose
zero-extended value fits `K` unsigned bits. -/
def m_UInt (K : Nat) (v : Value) : Bool :=
  m_Zero v ||
    (match v with
     | .intConst c => decide (c.width < 64) && isUIntB K c.uval
     | _ => false)

/-- `m_ShAmt`. -/
def m_ShAmt (v : Value) : Bool := m_UInt ShAmtBits v

/-- `m_BitImm`: constants of width `< 64` that are a shifted mask of run
length at most 8, a byte splat, a high-ones/low-zeros pattern, or a
high-zeros/low-ones pattern. -/
def m_BitImm : Value → Bool
  | .intConst c =>
    if 64 ≤ c.width then false
    else
      (isShiftedMask64 c.uval && decide (popcountFuel 64 c.uval ≤ 8)) ||
      (c.width % 8 == 0 && c.isSplat8) ||
      (countlOneAux c.width c.uval + ctzFuel c.width c.uval == c.width) ||
      (countlZeroAux c.width c.uval + ctoFuel c.width c.uval == c.width)
  | _ => false

/-- `PatternMatch::m_Power2`. -/
def m_Power2 : Value → Bool
  | .intConst c => c.uval != 0 && Nat.land c.uval (c.uval - 1) == 0
  | _ => false

/-- `m_FPImm`: a floating constant that round-trips losslessly through
`Float8E4M3FN`. -/
def m_FPImm : Value → Bool
  | .fpConst f => f.fitsFloat8E4M3FN
  | _ => false

/-! ### Cost constants (`costestimate.cpp`) -/

def LoadStoreCost : Nat := 4
def JumpCost : Nat := 1
def MulCost : Nat := 3
def DivCost : Nat := 12
def FDivCost : Nat := 30
def FMulCost : Nat := 5
def FCheapOpCost : Nat := 3
def GlobalCost : Nat := 2
def BitCountCost : Nat := 3
def UnsupportedCost : Nat := 1000

/-! ### Instructions and the estimator state

The embedding covers single-basic-block functions (the entry block only,
which is always reachable and carries no phi nodes), over the estimated
opcodes needed here. Instructions carry an explicit result id. -/

inductive Inst where
  | add (lhs rhs : Value)
  | sub (lhs rhs : Value)
  | shl (lhs rhs : Value)
  | lshr (lhs rhs : Value)
  | ashr (lhs rhs : Value)
  | mul (lhs rhs : Value)
  | fadd (lhs rhs : Value)
  | fsub (lhs rhs : Value)
  | fmul (lhs rhs : Value)
  | fdiv (lhs rhs : Value)
  | store (val ptr : Value)
  | ret (v : Value)
deriving DecidableEq

/-- An instruction together with its result id. -/
structure NInst where
  id : Nat
  inst : Inst
deriving DecidableEq

/-- A function body: the instruction list of its entry block, in program
order (the last instruction is the terminator). -/
structure Func where
  insts : List NInst

/-- The estimator's mutable state: the `RequestedValues` set (kept as a
duplicate-free list) and the accumulated `Cost`. -/
structure EstState where
  requested : List Value
  cost : Nat
deriving DecidableEq

/-- Idempotent insertion into `RequestedValues`. -/
def insertReq (v : Value) (l : List Value) : List Value :=
  if v ∈ l then l else v :: l

/-- The operand list of an instruction. -/
def operandsOf : Inst → List Value
  | .add a b => [a, b]
  | .sub a b => [a, b]
  | .shl a b => [a, b]
  | .lshr a b => [a, b]
  | .ashr a b => [a, b]
  | .mul a b => [a, b]
  | .fadd a b => [a, b]
  | .fsub a b => [a, b]
  | .fmul a b => [a, b]
  | .fdiv a b => [a, b]
  | .store a b => [a, b]
  | .ret a => [a]

/-- `CostEstimator::countMul`. -/
def countMul (lhs rhs : Value) (s : EstState) : EstState :=
  if m_Power2 rhs then ⟨insertReq lhs s.requested, s.cost + 1⟩
  else if m_Int MulDivBits rhs then ⟨insertReq lhs s.requested, s.cost + 1⟩
  else ⟨insertReq rhs (insertReq lhs s.requested), s.cost + MulCost⟩

/-- `CostEstimator::countAdd`. -/
def countAdd (lhs rhs : Value) (s : EstState) : EstState :=
  if m_Int AddSubImmBits rhs then ⟨insertReq lhs s.requested, s.cost + 1⟩
  else ⟨insertReq rhs (insertReq lhs s.requested), s.cost + 1⟩

/-- The shared `Shl`/`AShr`/`LShr` case of `visitBinaryOperator`. -/
def visitShift (lhs rhs : Value) (s : EstState) : EstState :=
  if !(m_Int ShiftImmBits lhs) then ⟨insertReq lhs s.requested, s.cost + 1⟩
  else if !(m_ShAmt rhs) then ⟨insertReq rhs s.requested, s.cost + 1⟩
  else ⟨s.requested, s.cost + 1⟩

/-- The shared shape of the `FAdd`/`FSub`/`FMul`/`FDiv` cases: request
`lhs`, fold `rhs` when it matches `m_FPImm`, charge `k`. -/
def visitFPBin (lhs rhs : Value) (k : Nat) (s : EstState) : EstState :=
  if m_FPImm rhs then ⟨insertReq lhs s.requested, s.cost + k⟩
  else ⟨insertReq rhs (insertReq lhs s.requested), s.cost + k⟩

/-- The estimator's per-instruction visit (`InstVisitor` dispatch).
Note the `FSub` case swaps the two operands before applying the
`FAdd` rule, as the source does. -/
def visitInst (s : EstState) : Inst → EstState
  | .add a b => countAdd a b s
  | .sub a b =>
    if m_Int AddSubImmBits a then ⟨insertReq b s.requested, s.cost + 1⟩
    else ⟨insertReq b (insertReq a s.requested), s.cost + 1⟩
  | .shl a b => visitShift a b s
  | .lshr a b => visitShift a b s
  | .ashr a b => visitShift a b s
  | .mul a b => countMul a b s
  | .fadd a b => visitFPBin a b FCheapOpCost s
  | .fsub a b => visitFPBin b a FCheapOpCost s
  | .fmul a b => visitFPBin a b FMulCost s
  | .fdiv a b => visitFPBin a b FDivCost s
  | .store v p => ⟨insertReq p (insertReq v s.requested), s.cost + LoadStoreCost⟩
  | .ret v => ⟨insertReq v s.requested, s.cost + JumpCost⟩

/-- `llvm::wouldInstructionBeTriviallyDead`, restricted to the modelled
opcodes: terminators and memory writes are not removable, the pure
arithmetic instructions are. -/
def wouldInstructionBeTriviallyDead : Inst → Bool
  | .store _ _ => false
  | .ret _ => false
  | _ => true

/-- One step of the traversal loop in `CostEstimator::run`: visit the
instruction iff its result is already requested or it is not trivially
removable, otherwise skip it. -/
def stepInst (s : EstState) (n : NInst) : EstState :=
  if Value.instr n.id ∈ s.requested ∨ wouldInstructionBeTriviallyDead n.inst = false then
    visitInst s n.inst
  else s

/-- The residual materialization charge of one requested value
(the final loop of `CostEstimator::run`). -/
def materializeCost : Value → Nat
  | .intConst c =>
    if c.width ≤ 64 then
      if isIntB LargeImmBits c.sval then 1
      else if m_BitImm (.intConst c) then 1
      else if isIntB (LargeImmBits + AddSubImmBits) c.sval then 2
      else LoadStoreCost
    else 0
  | .fpConst f => if f.fitsIEEEHalf then FCheapOpCost else LoadStoreCost
  | _ => 0

/-- Total residual charge over the requested set. -/
def residualCost (l : List Value) : Nat := (l.map materializeCost).sum

/-- The traversal of `CostEstimator::run` on a single-block function:
instructions in reverse program order, starting from an empty state. -/
def runState (F : Func) : EstState :=
  F.insts.reverse.foldl stepInst ⟨[], 0⟩

/-- `CostEstimator::run`: traversal cost plus residual constant charges. -/
def runFunc (F : Func) : Nat :=
  (runState F).cost + residualCost (runState F).requested

/-! ### Reference materialization-cost utility (`constmat.cpp`) -/

/-- `getMatCost`. -/
def getMatCost (V : Int) : Nat :=
  if V == 0 || V == 1 then 0
  else if isIntB 12 V then 1
  else if isIntB 32 V then 2
  else 4

/-- The summation loop of `constmat.cpp`'s `main` over the parsed
`⟨value, count⟩` pairs. -/
def constMatTotal (pairs : List (Int × Nat)) : Nat :=
  pairs.foldl (fun sum p => sum + getMatCost p.1 * p.2) 0

/-! ### Encoding solver (`encode.cpp`) -/

def InstructionBits : Nat := 32
def RegBits : Nat := 5
def BinOpReg : Nat := RegBits * 3
def UnOpReg : Nat := RegBits * 2
def OpTypeBits : Nat := 2

/-- One opcode table entry (`struct Op`). -/
structure OpcodeSpec where
  mnemonic : String
  length : Nat
deriving DecidableEq

/-- The static opcode table `Ops`. -/
def Ops : List OpcodeSpec := [
  OpcodeSpec.mk "LI" (RegBits + LargeImmBits),
  OpcodeSpec.mk "LUI" (RegBits + LargeImmBits),
  OpcodeSpec.mk "LBITI" (RegBits + BitImmBits),
  OpcodeSpec.mk "ADD" (BinOpReg + OpTypeBits),
  OpcodeSpec.mk "SUB" (BinOpReg + OpTypeBits),
  OpcodeSpec.mk "ADDI" (UnOpReg + OpTypeBits + AddSubImmBits),
  OpcodeSpec.mk "RSBI" (UnOpReg + OpTypeBits + AddSubImmBits),
  OpcodeSpec.mk "SLL" (BinOpReg + OpTypeBits),
  OpcodeSpec.mk "SRL" (BinOpReg + OpTypeBits),
  OpcodeSpec.mk "SRA" (BinOpReg + OpTypeBits),
  OpcodeSpec.mk "SLLVI" (UnOpReg + ShAmtBits + OpTypeBits),
  OpcodeSpec.mk "SRLVI" (UnOpReg + ShAmtBits + OpTypeBits),
  OpcodeSpec.mk "SRAVI" (UnOpReg + ShAmtBits + OpTypeBits),
  OpcodeSpec.mk "SLLIV" (UnOpReg + ShiftImmBits + OpTypeBits),
  OpcodeSpec.mk "SRLIV" (UnOpReg + ShiftImmBits + OpTypeBits),
  OpcodeSpec.mk "SRAIV" (UnOpReg + ShiftImmBits + OpTypeBits),
  OpcodeSpec.mk "FSHL" (RegBits * 4 + OpTypeBits),
  OpcodeSpec.mk "FSHR" (RegBits * 4 + OpTypeBits),
  OpcodeSpec.mk "FSHLI" (BinOpReg + ShAmtBits + OpTypeBits),
  OpcodeSpec.mk "AND" (BinOpReg + NotBit),
  OpcodeSpec.mk "OR" (BinOpReg + NotBit),
  OpcodeSpec.mk "XOR" (BinOpReg + NotBit),
  OpcodeSpec.mk "ANDI" (UnOpReg + NotBit + BitImmBits),
  OpcodeSpec.mk "ORI" (UnOpReg + NotBit + BitImmBits),
  OpcodeSpec.mk "XORI" (UnOpReg + NotBit + BitImmBits),
  OpcodeSpec.mk "ICMP" (BinOpReg + OpTypeBits + 4),
  OpcodeSpec.mk "ICMPI" (UnOpReg + OpTypeBits + 4 + CmpImmBits),
  OpcodeSpec.mk "CTPOP" (UnOpReg + OpTypeBits),
  OpcodeSpec.mk "CTLZ" (UnOpReg + OpTypeBits),
  OpcodeSpec.mk "CTTZ" (UnOpReg + OpTypeBits),
  OpcodeSpec.mk "SELVV" (BinOpReg),
  OpcodeSpec.mk "SELVI" (UnOpReg + OpTypeBits + SelectImmBits),
  OpcodeSpec.mk "SELIV" (UnOpReg + OpTypeBits + SelectImmBits),
  OpcodeSpec.mk "SELII" (RegBits + OpTypeBits + SmallSelectImmBits * 2),
  OpcodeSpec.mk "SCMPSELI" (BinOpReg + OpTypeBits),
  OpcodeSpec.mk "UCMPSELI" (BinOpReg + OpTypeBits),
  OpcodeSpec.mk "MUL" (BinOpReg + OpTypeBits),
  OpcodeSpec.mk "MULI" (UnOpReg + OpTypeBits + MulDivBits),
  OpcodeSpec.mk "MULHU" (BinOpReg + OpTypeBits),
  OpcodeSpec.mk "MULHS" (BinOpReg + OpTypeBits),
  OpcodeSpec.mk "SDIV" (BinOpReg + OpTypeBits),
  OpcodeSpec.mk "SDIVI" (UnOpReg + OpTypeBits + MulDivBits),
  OpcodeSpec.mk "UDIV" (BinOpReg + OpTypeBits),
  OpcodeSpec.mk "UDIVI" (UnOpReg + OpTypeBits + MulDivBits),
  OpcodeSpec.mk "SREM" (BinOpReg + OpTypeBits),
  OpcodeSpec.mk "SREMI" (UnOpReg + OpTypeBits + MulDivBits),
  OpcodeSpec.mk "UREM" (BinOpReg + OpTypeBits),
  OpcodeSpec.mk "UREMI" (UnOpReg + OpTypeBits + MulDivBits),
  OpcodeSpec.mk "ABS" (UnOpReg + OpTypeBits),
  OpcodeSpec.mk "ABSDIFF" (BinOpReg + OpTypeBits),
  OpcodeSpec.mk "BSWAP16" (UnOpReg),
  OpcodeSpec.mk "BSWAP32" (UnOpReg),
  OpcodeSpec.mk "BSWAP64" (UnOpReg),
  OpcodeSpec.mk "BREV" (UnOpReg + OpTypeBits),
  OpcodeSpec.mk "SMAX" (BinOpReg + OpTypeBits),
  OpcodeSpec.mk "SMIN" (BinOpReg + OpTypeBits),
  OpcodeSpec.mk "UMAX" (BinOpReg + OpTypeBits),
  OpcodeSpec.mk "UMIN" (BinOpReg + OpTypeBits),
  OpcodeSpec.mk "SMAXI" (UnOpReg + OpTypeBits + MinMaxImmBits),
  OpcodeSpec.mk "SMINI" (UnOpReg + OpTypeBits + MinMaxImmBits),
  OpcodeSpec.mk "UMAXI" (UnOpReg + OpTypeBits + MinMaxImmBits),
  OpcodeSpec.mk "UMINI" (UnOpReg + OpTypeBits + MinMaxImmBits),
  OpcodeSpec.mk "SSAT" (UnOpReg + OpTypeBits + ShAmtBits),
  OpcodeSpec.mk "USAT" (UnOpReg + OpTypeBits + ShAmtBits),
  OpcodeSpec.mk "FADD" (BinOpReg + OpTypeBits),
  OpcodeSpec.mk "FADDI" (UnOpReg + OpTypeBits + FPSmallImmBits),
  OpcodeSpec.mk "FSUB" (BinOpReg + OpTypeBits),
  OpcodeSpec.mk "FRSBI" (UnOpReg + OpTypeBits + FPSmallImmBits),
  OpcodeSpec.mk "FMUL" (BinOpReg + OpTypeBits),
  OpcodeSpec.mk "FMULI" (UnOpReg + OpTypeBits + FPSmallImmBits),
  OpcodeSpec.mk "FDIV" (BinOpReg + OpTypeBits),
  OpcodeSpec.mk "FDIVI" (UnOpReg + OpTypeBits + FPSmallImmBits),
  OpcodeSpec.mk "FSQRT" (UnOpReg + OpTypeBits),
  OpcodeSpec.mk "FABS" (UnOpReg + OpTypeBits + NegBit),
  OpcodeSpec.mk "FCOPYSIGN" (BinOpReg + OpTypeBits + NegBit),
  OpcodeSpec.mk "FCOPYSIGNI" (UnOpReg + OpTypeBits + NegBit + FPSmallImmBits - 1),
  OpcodeSpec.mk "FMAX" (BinOpReg + OpTypeBits),
  OpcodeSpec.mk "FMIN" (BinOpReg + OpTypeBits),
  OpcodeSpec.mk "FMAXNM" (BinOpReg + OpTypeBits),
  OpcodeSpec.mk "FMINNM" (BinOpReg + OpTypeBits),
  OpcodeSpec.mk "FCLASS" (UnOpReg + 10 + OpTypeBits),
  OpcodeSpec.mk "FTOSI" (UnOpReg + OpTypeBits),
  OpcodeSpec.mk "FTOUI" (UnOpReg + OpTypeBits),
  OpcodeSpec.mk "FTOSISAT" (UnOpReg + OpTypeBits + ShAmtBits),
  OpcodeSpec.mk "FTOUISAT" (UnOpReg + OpTypeBits + ShAmtBits),
  OpcodeSpec.mk "FTOBI" (UnOpReg + OpTypeBits),
  OpcodeSpec.mk "SITOF" (UnOpReg + OpTypeBits),
  OpcodeSpec.mk "UITOF" (UnOpReg + OpTypeBits),
  OpcodeSpec.mk "BITOF" (UnOpReg + OpTypeBits),
  OpcodeSpec.mk "FMA" (RegBits * 4 + OpTypeBits),
  OpcodeSpec.mk "FLI" (RegBits + OpTypeBits + FPImmBits),
  OpcodeSpec.mk "FCMP" (BinOpReg + OpTypeBits + 4),
  OpcodeSpec.mk "FCMPI" (UnOpReg + OpTypeBits + 4 + FPSmallImmBits),
  OpcodeSpec.mk "J" (LinkBit + JumpOffsetImmBits),
  OpcodeSpec.mk "JR" (RegBits + LinkBit + JumpOffsetImmBits),
  OpcodeSpec.mk "BCMP" (RegBits * 2 + OpTypeBits + 4 + BranchOffsetImmBits),
  OpcodeSpec.mk "BCMPI" (RegBits + BranchCmpImmBits + OpTypeBits + 4 + BranchOffsetImmBits),
  OpcodeSpec.mk "SHLIADD" (BinOpReg + OpTypeBits + ShAmtBits),
  OpcodeSpec.mk "MULIADD" (BinOpReg + OpTypeBits + SmallMulBits),
  OpcodeSpec.mk "SRLIDIFF" (BinOpReg + OpTypeBits + ShAmtBits),
  OpcodeSpec.mk "SRAIDIFF" (BinOpReg + OpTypeBits + ShAmtBits),
  OpcodeSpec.mk "UDIVIDIFF" (BinOpReg + OpTypeBits + SmallMulBits),
  OpcodeSpec.mk "SDIVIDIFF" (BinOpReg + OpTypeBits + SmallMulBits)]

/-- The pairwise mnemonic-distinctness check of `isUnique`
(the `i < j` double loop, expressed structurally). -/
def mnemonicsDistinct : List OpcodeSpec → Bool
  | [] => true
  | op :: rest =>
    rest.all (fun op2 => op.mnemonic != op2.mnemonic) && mnemonicsDistinct rest

/-- `isUnique` from `encode.cpp`. -/
def isUnique : Bool := mnemonicsDistinct Ops

/-- `isDecodable` from `encode.cpp`: every field length is strictly below
the instruction width. -/
def isDecodable : Bool :=
  Ops.all fun op => decide (op.length < InstructionBits)

/-- The prefix length of one table entry: `InstructionBits - Length`. -/
def prefixLengthOf (op : OpcodeSpec) : Nat := InstructionBits - op.length

/-- The list of opcode-prefix bit-vector widths the solver introduces. -/
def opsPrefixLengths : List Nat := Ops.map prefixLengthOf

/-- The `Trunc` lambda of `encode.cpp`'s `main`: the most-significant
`size` bits of a `len`-bit value. -/
def truncMSB (len size x : Nat) : Nat :=
  x % 2 ^ len / 2 ^ (len - size)

/-- The conjunction of constraints the solver asserts: for every pair
`i < j`, the two prefix unknowns truncated (most-significant bits) to the
shorter of the two prefix lengths differ. `L` is the list of prefix
lengths, `a` an assignment of values to the unknowns. -/
def assertedConstraints (L a : List Nat) : Prop :=
  ∀ j, j < L.length → ∀ i, i < j →
    truncMSB (L.getD i 0) (min (L.getD i 0) (L.getD j 0)) (a.getD i 0) ≠
    truncMSB (L.getD j 0) (min (L.getD i 0) (L.getD j 0)) (a.getD j 0)

/-- Pairwise non-collision under truncation (the decodability property):
no two distinct operations agree on their shared prefix length. -/
def nonColliding (L a : List Nat) : Prop :=
  ∀ i, i < L.length → ∀ j, j < L.length → i ≠ j →
    truncMSB (L.getD i 0) (min (L.getD i 0) (L.getD j 0)) (a.getD i 0) ≠
    truncMSB (L.getD j 0) (min (L.getD i 0) (L.getD j 0)) (a.getD j 0)

/-- One output line of the encoding solver. -/
inductive OutLine where
  | assign (mnemonic : String) (pattern : Nat)
  | unsatLine
deriving DecidableEq

/-- The outcome of the single `Solver.check()` call
(`z3::sat`, `z3::unsat` or `z3::unknown`); in the satisfiable case the
extracted model, one value per unknown. -/
inductive CheckResult where
  | sat (model : List Nat)
  | unsat
  | unknown

/-- The output lines and process exit status of `encode.cpp`'s `main`
after the solver call: on `sat`, one assignment line per operation and
`EXIT_SUCCESS`; otherwise a single `unsat` line and `EXIT_FAILURE`. -/
def encodeMain : CheckResult → List OutLine × Nat
  | .sat m =>
    ((List.range Ops.length).map fun i =>
       .assign (Ops.getD i ⟨"", 0⟩).mnemonic (m.getD i 0), 0)
  | .unsat => ([.unsatLine], 1)
  | .unknown => ([.unsatLine], 1)

instance (L a : List Nat) : Decidable (assertedConstraints L a) := by
  unfold assertedConstraints; infer_instance

instance (L a : List Nat) : Decidable (nonColliding L a) := by
  unfold nonColliding; infer_instance

/-- A concrete satisfying assignment for the solver's constraint system
over the `Ops` table (a canonical prefix code on the prefix lengths,
listed in table order). -/
def canonicalAssignment : List Nat := [114, 115, 3852, 30884, 30885, 0,
  1, 30886, 30887, 30888, 15434, 15435, 15436, 46, 47, 48, 958, 959,
  474, 61822, 61823, 61824, 49, 50, 51, 1924, 2, 989210, 989211, 989212,
  123650, 3, 4, 22, 30889, 30890, 30891, 52, 30892, 30893, 30894, 53,
  30895, 54, 30896, 55, 30897, 56, 989213, 30898, 3956888, 3956889,
  3956890, 989214, 30899, 30900, 30901, 30902, 5, 6, 7, 8, 15437, 15438,
  30903, 3853, 30904, 3854, 30905, 3855, 30906, 3856, 989215, 494604,
  15439, 3857, 30907, 30908, 30909, 30910, 960, 989216, 989217, 15440,
  15441, 989218, 989219, 989220, 989221, 961, 475, 1925, 232, 7716, 233,
  9, 10, 476, 234, 477, 478, 235, 236]

/-! ## Theorems -/

/-- Membership after an idempotent insertion. -/
theorem mem_insertReq {v w : Value} {l : List Value} :
    v ∈ insertReq w l ↔ v = w ∨ v ∈ l := by
  by_cases hw : w ∈ l
  · rw [insertReq, if_pos hw]
    constructor
    · exact Or.inr
    · rintro (rfl | h)
      · exact hw
      · exact h
  · rw [insertReq, if_neg hw, List.mem_cons]

/-- The asserted ordered-pair constraints imply non-collision for every
unordered pair, by symmetry of the shared truncation length. -/
theorem asserted_implies_nonColliding (L a : List Nat)
    (h : assertedConstraints L a) : nonColliding L a := by
  intro i hi j hj hij
  rcases Nat.lt_or_ge i j with hlt | hge
  · exact h j hj i hlt
  · have hlt : j < i := by omega
    have h2 := (h i hi j hlt).symm
    rw [Nat.min_comm (L.getD i 0) (L.getD j 0)]
    exact h2

/-- C2: the Encoding Solver asserts, for every pair of operations, that
the most-significant-bit truncations of their prefix unknowns to the
shorter of the two prefix lengths differ; hence any assignment
satisfying the asserted constraints (in particular any model the solver
returns on `sat`) is pairwise non-colliding under truncation: no two
operations' patterns agree on their shared prefix length. -/
theorem solver_model_noncolliding (a : List Nat)
    (h : assertedConstraints opsPrefixLengths a) :
    nonColliding opsPrefixLengths a :=
  asserted_implies_nonColliding _ _ h

theorem solver_model_noncolliding_witness :
    assertedConstraints opsPrefixLengths canonicalAssignment ∧
    nonColliding opsPrefixLengths canonicalAssignment :=
  have h : assertedConstraints opsPrefixLengths canonicalAssignment := by decide
  ⟨h, solver_model_noncolliding canonicalAssignment h⟩

/-- C6: the opcode table passes static validation (checked before any
solving in the source, by `static_assert`): all mnemonics are pairwise
distinct, every field length is strictly below the instruction width,
and consequently every opcode prefix is non-empty. -/
theorem static_table_validation :
    isUnique = true ∧ isDecodable = true ∧
    opsPrefixLengths.all (fun l => decide (0 < l)) = true :=
  ⟨by decide, by decide, by decide⟩

/-- C7: on an unsatisfiable constraint system the program emits exactly
one `unsat` line, no assignment lines, and a non-zero exit status. -/
theorem unsat_single_line_nonzero_exit :
    (encodeMain .unsat).1 = [OutLine.unsatLine] ∧
    ((encodeMain .unsat).1.countP fun l => decide (l = OutLine.unsatLine)) = 1 ∧
    (∀ mn p, OutLine.assign mn p ∉ (encodeMain .unsat).1) ∧
    (encodeMain .unsat).2 ≠ 0 := by
  refine ⟨rfl, rfl, ?_, by decide⟩
  intro mn p hmem
  simp [encodeMain] at hmem

/-- C8: the reference materialization-cost tiers: 0 for the values 0 and
1, 1 for any other value in the signed 12-bit range, 2 for any other
value in the signed 32-bit range, 4 otherwise; and the utility sums
`tier(value) * count`, giving 4 on the reference histogram. -/
theorem getMatCost_tiers :
    getMatCost 0 = 0 ∧ getMatCost 1 = 0 ∧
    (∀ V : Int, V ≠ 0 → V ≠ 1 → isIntB 12 V = true → getMatCost V = 1) ∧
    (∀ V : Int, V ≠ 0 → V ≠ 1 → isIntB 12 V = false → isIntB 32 V = true →
      getMatCost V = 2) ∧
    (∀ V : Int, V ≠ 0 → V ≠ 1 → isIntB 12 V = false → isIntB 32 V = false →
      getMatCost V = 4) ∧
    constMatTotal [((0 : Int), 5), (1, 3), (100, 2), (5000, 1)] = 4 := by
  refine ⟨rfl, rfl, ?_, ?_, ?_, by decide⟩ <;>
    intro V h0 h1 <;>
    simp only [getMatCost, h0, h1] <;>
    intro h <;>
    simp_all

/-- A visit only ever requests operands of the visited instruction. -/
theorem visitInst_requested_subset (s : EstState) (I : Inst) (v : Value)
    (hv : v ∈ (visitInst s I).requested) : v ∈ s.requested ∨ v ∈ operandsOf I := by
  cases I <;>
    simp only [visitInst, countAdd, countMul, visitShift, visitFPBin, operandsOf] at hv ⊢ <;>
    (try split_ifs at hv) <;>
    simp only [mem_insertReq, List.mem_cons, List.mem_singleton,
      List.not_mem_nil, or_false, false_or] at hv ⊢ <;>
    tauto

/-- Values requested over a traversal segment come from the initial
state or from operands of instructions in the segment. -/
theorem foldl_requested_subset (l : List NInst) (s : EstState) (v : Value)
    (hv : v ∈ (l.foldl stepInst s).requested) :
    v ∈ s.requested ∨ ∃ m, m ∈ l ∧ v ∈ operandsOf m.inst := by
  induction l generalizing s with
  | nil => exact Or.inl hv
  | cons n rest ih =>
    rw [List.foldl_cons] at hv
    rcases ih (stepInst s n) hv with h | ⟨m, hm, hvm⟩
    · by_cases hc : Value.instr n.id ∈ s.requested ∨
          wouldInstructionBeTriviallyDead n.inst = false
      · rw [stepInst, if_pos hc] at h
        rcases visitInst_requested_subset s n.inst v h with h2 | h2
        · exact Or.inl h2
        · exact Or.inr ⟨n, List.mem_cons_self _ _, h2⟩
      · rw [stepInst, if_neg hc] at h
        exact Or.inl h
    · exact Or.inr ⟨m, List.mem_cons_of_mem _ hm, hvm⟩

/-- C4: deleting a side-effect-free (trivially removable) instruction
whose result is used by no instruction of the function never changes the
computed cost: the traversal visits an instruction iff it is already
requested or not trivially removable, and a skipped instruction
contributes no cost and requests nothing. -/
theorem dead_code_law (pre post : List NInst) (n : NInst)
    (hdead : wouldInstructionBeTriviallyDead n.inst = true)
    (hunused : ∀ m, m ∈ pre ++ post → Value.instr n.id ∉ operandsOf m.inst) :
    runFunc ⟨pre ++ post⟩ = runFunc ⟨pre ++ n :: post⟩ := by
  have hrev1 : (pre ++ post).reverse = post.reverse ++ pre.reverse :=
    List.reverse_append _ _
  have hrev2 : (pre ++ n :: post).reverse = post.reverse ++ (n :: pre.reverse) := by
    rw [List.reverse_append, List.reverse_cons, List.append_assoc,
      List.singleton_append]
  have hskip : stepInst (post.reverse.foldl stepInst ⟨[], 0⟩) n =
      post.reverse.foldl stepInst ⟨[], 0⟩ := by
    rw [stepInst, if_neg]
    rintro (hmem | hd)
    · rcases foldl_requested_subset _ _ _ hmem with h | ⟨m, hm, hvm⟩
      · simp at h
      · exact hunused m (List.mem_append.mpr (Or.inr (List.mem_reverse.mp hm))) hvm
    · rw [hdead] at hd
      cases hd
  have hstates : runState ⟨pre ++ post⟩ = runState ⟨pre ++ n :: post⟩ := by
    show (pre ++ post).reverse.foldl stepInst ⟨[], 0⟩ =
      (pre ++ n :: post).reverse.foldl stepInst ⟨[], 0⟩
    rw [hrev1, hrev2, List.foldl_append, List.foldl_append, List.foldl_cons, hskip]
  rw [runFunc, runFunc, hstates]

theorem dead_code_law_witness :
    wouldInstructionBeTriviallyDead (Inst.add (.param 0) (.param 1)) = true ∧
    runFunc ⟨[⟨1, .ret (.param 0)⟩]⟩ =
      runFunc ⟨[⟨0, .add (.param 0) (.param 1)⟩, ⟨1, .ret (.param 0)⟩]⟩ :=
  ⟨rfl, dead_code_law [] [⟨1, .ret (.param 0)⟩] ⟨0, .add (.param 0) (.param 1)⟩
    rfl (by decide)⟩

/-- C3: `a = x + c; return a` with `x` a parameter and `c` within the
add/sub-immediate budget costs exactly 1 (add) plus the fixed control
cost (return), and `c` never enters the residual requested set. -/
theorem fold_law (c : IntConst)
    (h : m_Int AddSubImmBits (.intConst c) = true) :
    runFunc ⟨[⟨0, .add (.param 0) (.intConst c)⟩, ⟨1, .ret (.instr 0)⟩]⟩ =
      1 + JumpCost ∧
    Value.intConst c ∉
      (runState ⟨[⟨0, .add (.param 0) (.intConst c)⟩, ⟨1, .ret (.instr 0)⟩]⟩).requested := by
  constructor <;>
    simp [runFunc, runState, stepInst, visitInst, countAdd, insertReq,
      wouldInstructionBeTriviallyDead, h, residualCost, materializeCost, JumpCost]

theorem fold_law_witness :
    m_Int AddSubImmBits (.intConst ⟨32, 5⟩) = true ∧
    runFunc ⟨[⟨0, .add (.param 0) (.intConst ⟨32, 5⟩)⟩, ⟨1, .ret (.instr 0)⟩]⟩ =
      1 + JumpCost :=
  ⟨by decide, (fold_law ⟨32, 5⟩ (by decide)).1⟩

/-- The behaviour of the shared floating add/sub/mul/div visit shape. -/
theorem visitFPBin_spec (lhs rhs : Value) (k : Nat) (s : EstState) :
    (visitFPBin lhs rhs k s).cost = s.cost + k ∧
    lhs ∈ (visitFPBin lhs rhs k s).requested ∧
    (m_FPImm rhs = false → rhs ∈ (visitFPBin lhs rhs k s).requested) ∧
    (m_FPImm rhs = true → rhs ∉ s.requested → rhs ≠ lhs →
      rhs ∉ (visitFPBin lhs rhs k s).requested) := by
  by_cases h : m_FPImm rhs <;>
    simp [visitFPBin, h, mem_insertReq]
  exact fun h1 h2 => ⟨h2, h1⟩

/-- C5 amended: a visited floating add or sub charges the fixed
cheap-float cost; for `fadd` the first operand is always requested and
the second folds exactly when it matches the small floating format; for
`fsub` the source swaps the operands first, so the second operand is
always requested and it is the first that folds under the same test. -/
theorem fadd_fsub_visit (s : EstState) (a b : Value) :
    ((visitInst s (.fadd a b)).cost = s.cost + FCheapOpCost ∧
     a ∈ (visitInst s (.fadd a b)).requested ∧
     (m_FPImm b = false → b ∈ (visitInst s (.fadd a b)).requested) ∧
     (m_FPImm b = true → b ∉ s.requested → b ≠ a →
       b ∉ (visitInst s (.fadd a b)).requested)) ∧
    ((visitInst s (.fsub a b)).cost = s.cost + FCheapOpCost ∧
     b ∈ (visitInst s (.fsub a b)).requested ∧
     (m_FPImm a = false → a ∈ (visitInst s (.fsub a b)).requested) ∧
     (m_FPImm a = true → a ∉ s.requested → a ≠ b →
       a ∉ (visitInst s (.fsub a b)).requested)) :=
  ⟨visitFPBin_spec a b FCheapOpCost s, visitFPBin_spec b a FCheapOpCost s⟩

theorem fadd_fsub_visit_witness :
    m_FPImm (Value.fpConst ⟨1, true, true⟩) = true ∧
    Value.fpConst ⟨1, true, true⟩ ∉
      (visitInst ⟨[], 0⟩ (.fsub (.fpConst ⟨1, true, true⟩) (.param 3))).requested ∧
    Value.param 3 ∈
      (visitInst ⟨[], 0⟩ (.fsub (.fpConst ⟨1, true, true⟩) (.param 3))).requested :=
  have k := fadd_fsub_visit ⟨[], 0⟩ (.fpConst ⟨1, true, true⟩) (.param 3)
  ⟨rfl, k.2.2.2.2 rfl (by simp) (by decide), k.2.2.1⟩

/-- C5 counterexample: visiting `fsub c x` where the floating constant
`c` (the first operand) matches the small floating format requests only
`x`; the first operand is not requested, so the claim's uniform
"first operand always requested, second folds" reading fails on `fsub`. -/
theorem fsub_first_operand_cex :
    (visitInst ⟨[], 0⟩ (.fsub (.fpConst ⟨0, true, true⟩) (.param 0))).requested =
      [Value.param 0] ∧
    Value.fpConst ⟨0, true, true⟩ ∉
      (visitInst ⟨[], 0⟩ (.fsub (.fpConst ⟨0, true, true⟩) (.param 0))).requested := by
  decide

/-- C9: for a visited shift (`shl`, `lshr`, `ashr`) whose first operand
does not fit the shift-immediate budget, the first operand is requested,
the shift-amount operand is never requested (whatever it is), and the
charge is 1. -/
theorem shift_nonimm_first_requested (s : EstState) (a b : Value)
    (h : m_Int ShiftImmBits a = false) :
    ((visitInst s (.shl a b)).cost = s.cost + 1 ∧
     a ∈ (visitInst s (.shl a b)).requested ∧
     (b ∉ s.requested → b ≠ a → b ∉ (visitInst s (.shl a b)).requested)) ∧
    ((visitInst s (.lshr a b)).cost = s.cost + 1 ∧
     a ∈ (visitInst s (.lshr a b)).requested ∧
     (b ∉ s.requested → b ≠ a → b ∉ (visitInst s (.lshr a b)).requested)) ∧
    ((visitInst s (.ashr a b)).cost = s.cost + 1 ∧
     a ∈ (visitInst s (.ashr a b)).requested ∧
     (b ∉ s.requested → b ≠ a → b ∉ (visitInst s (.ashr a b)).requested)) := by
  have hh : (visitShift a b s).cost = s.cost + 1 ∧
      a ∈ (visitShift a b s).requested ∧
      (b ∉ s.requested → b ≠ a → b ∉ (visitShift a b s).requested) := by
    rw [visitShift, h]
    simp [mem_insertReq]
    exact fun h1 h2 => ⟨h2, h1⟩
  exact ⟨hh, hh, hh⟩

theorem shift_nonimm_first_requested_witness :
    m_Int ShiftImmBits (Value.param 0) = false ∧
    (visitInst ⟨[], 0⟩ (.shl (.param 0) (.param 1))).cost = 1 ∧
    Value.param 0 ∈ (visitInst ⟨[], 0⟩ (.shl (.param 0) (.param 1))).requested ∧
    Value.param 1 ∉ (visitInst ⟨[], 0⟩ (.shl (.param 0) (.param 1))).requested :=
  have k := shift_nonimm_first_requested ⟨[], 0⟩ (.param 0) (.param 1) rfl
  ⟨rfl, k.1.1, k.1.2.1, k.1.2.2 (by simp) (by decide)⟩

/-- C1 amended: the residual pass charges every remaining requested
integer constant of width at most 64 by tier (1 if it fits the 20-bit
signed range, 1 if it matches the bit-pattern budget, 2 if it fits the
combined 36-bit signed range, the fixed load cost 4 otherwise); integer
constants wider than 64 bits are charged nothing; a floating constant is
charged the cheap tier iff it round-trips losslessly through IEEE half
precision, the load cost otherwise; non-constants are charged nothing. -/
theorem residual_materialization_tiers :
    (∀ c : IntConst, c.width ≤ 64 →
      (isIntB LargeImmBits c.sval = true → materializeCost (.intConst c) = 1) ∧
      (isIntB LargeImmBits c.sval = false → m_BitImm (.intConst c) = true →
        materializeCost (.intConst c) = 1) ∧
      (isIntB LargeImmBits c.sval = false → m_BitImm (.intConst c) = false →
        isIntB (LargeImmBits + AddSubImmBits) c.sval = true →
        materializeCost (.intConst c) = 2) ∧
      (isIntB LargeImmBits c.sval = false → m_BitImm (.intConst c) = false →
        isIntB (LargeImmBits + AddSubImmBits) c.sval = false →
        materializeCost (.intConst c) = LoadStoreCost)) ∧
    (∀ c : IntConst, 64 < c.width → materializeCost (.intConst c) = 0) ∧
    (∀ f : FPConst,
      (f.fitsIEEEHalf = true → materializeCost (.fpConst f) = FCheapOpCost) ∧
      (f.fitsIEEEHalf = false → materializeCost (.fpConst f) = LoadStoreCost)) ∧
    (∀ i, materializeCost (.param i) = 0) ∧
    (∀ i, materializeCost (.instr i) = 0) := by
  refine ⟨?_, ?_, ?_, fun i => rfl, fun i => rfl⟩
  · intro c hw
    refine ⟨fun h1 => ?_, fun h1 h2 => ?_, fun h1 h2 h3 => ?_, fun h1 h2 h3 => ?_⟩
    · simp [materializeCost, hw, h1]
    · simp [materializeCost, hw, h1, h2]
    · simp [materializeCost, hw, h1, h2, h3]
    · simp [materializeCost, hw, h1, h2, h3]
  · intro c hw
    have hw2 : ¬ c.width ≤ 64 := by omega
    simp [materializeCost, hw2]
  · intro f
    refine ⟨fun h => ?_, fun h => ?_⟩ <;> simp [materializeCost, h]

theorem residual_materialization_tiers_witness :
    materializeCost (.intConst ⟨32, 5⟩) = 1 ∧
    materializeCost (.intConst ⟨70, 5⟩) = 0 ∧
    materializeCost (.fpConst ⟨0, true, true⟩) = FCheapOpCost :=
  ⟨(residual_materialization_tiers.1 ⟨32, 5⟩ (by decide)).1 (by decide),
   residual_materialization_tiers.2.1 ⟨70, 5⟩ (by decide),
   (residual_materialization_tiers.2.2.1 ⟨0, true, true⟩).1 rfl⟩

/-- C1 counterexample: the 65-bit integer constant 5 fits the 20-bit
signed range yet the residual pass charges it nothing (constants wider
than 64 bits are skipped), so a function returning it costs only the
control charge. -/
theorem residual_wide_constant_cex :
    isIntB LargeImmBits (IntConst.sval ⟨65, 5⟩) = true ∧
    materializeCost (.intConst ⟨65, 5⟩) = 0 ∧
    runFunc ⟨[⟨0, .ret (.intConst ⟨65, 5⟩)⟩]⟩ = JumpCost := by
  decide

/-- C10 amended: a nonzero integer constant wider than 64 bits matches
no range-fold matcher (zero of any width does match them, through the
zero matcher); the bit-pattern fold rejects every constant of width at
least 64; and such wide constants contribute no residual
materialization cost. -/
theorem wide_integer_constant_folds (c : IntConst) (K : Nat) :
    (64 < c.width → c.uval ≠ 0 →
      m_Int K (.intConst c) = false ∧ m_UInt K (.intConst c) = false) ∧
    (64 ≤ c.width → m_BitImm (.intConst c) = false) ∧
    (64 < c.width → materializeCost (.intConst c) = 0) := by
  refine ⟨fun hw hz => ?_, fun hw => ?_, fun hw => ?_⟩
  · have hww : ¬ c.width < 64 := by omega
    constructor
    · simp [m_Int, m_Zero, hz, hww]
    · simp [m_UInt, m_Zero, hz, hww]
  · simp [m_BitImm, hw]
  · have hw2 : ¬ c.width ≤ 64 := by omega
    simp [materializeCost, hw2]

theorem wide_integer_constant_folds_witness :
    m_Int 16 (.intConst ⟨65, 7⟩) = false ∧
    m_BitImm (.intConst ⟨65, 7⟩) = false ∧
    materializeCost (.intConst ⟨65, 7⟩) = 0 :=
  ⟨((wide_integer_constant_folds ⟨65, 7⟩ 16).1 (by decide) (by decide)).1,
   (wide_integer_constant_folds ⟨65, 7⟩ 16).2.1 (by decide),
   (wide_integer_constant_folds ⟨65, 7⟩ 16).2.2 (by decide)⟩

/-- C10 counterexample: the zero constant of width 65 exceeds 64 bits
yet matches the add/sub range-fold matcher (and the shift-amount
matcher) through the zero matcher. -/
theorem wide_zero_fold_cex :
    m_Int AddSubImmBits (.intConst ⟨65, 0⟩) = true ∧
    m_UInt ShAmtBits (.intConst ⟨65, 0⟩) = true := by
  decide

theorem getMatCost_tiers_witness :
    getMatCost 100 = 1 ∧ getMatCost 5000 = 2 ∧ getMatCost (2 ^ 40) = 4 :=
  ⟨getMatCost_tiers.2.2.1 100 (by decide) (by decide) (by decide),
   getMatCost_tiers.2.2.2.1 5000 (by decide) (by decide) (by decide) (by decide),
   getMatCost_tiers.2.2.2.2.1 (2 ^ 40) (by decide) (by decide) (by decide) (by decide)⟩

end R6
